import Mathlib

/-!
Verification of the market-health scoring engine and its supporting
infrastructure (score history store, retrying fetcher, rate limiter,
local-storage cache, pillar categorizer).

Modelling conventions for the shallow embedding:
* JavaScript numbers are modelled as `ℚ` (the program only ever performs
  field arithmetic and comparisons on them; `0/0`, which is `NaN` in JS and
  makes every `>=` comparison false, is `0` in `ℚ` and likewise fails every
  comparison against a positive threshold, so the two semantics select the
  same branch everywhere a division by zero can occur).
* `Math.round` is `jsRound` below: round half toward positive infinity,
  i.e. round-half-up, `⌊q + 1/2⌋`.
* Wall-clock instants (`Date.now()`) are integer milliseconds.
* Fallible operations return `Option`; catch-all handlers that degrade to a
  default are modelled by total functions returning that default.
-/

/-- JavaScript `Math.round`: rounds half toward `+∞` (round-half-up). -/
def jsRound (q : ℚ) : ℤ := ⌊q + 1/2⌋

-- ============================================================================
-- Scoring rules (src/unnamed/part_000, `scoringRules`)
-- ============================================================================

namespace scoringRules

def priceVs200MA (percentAbove : ℚ) : ℤ :=
  if percentAbove ≥ 10 then 100
  else if percentAbove ≥ 5 then 85
  else if percentAbove ≥ 2 then 70
  else if percentAbove ≥ 0 then 55
  else if percentAbove ≥ -2 then 45
  else if percentAbove ≥ -5 then 30
  else if percentAbove ≥ -10 then 15
  else 0

def advanceDeclineRatio (advancers decliners : ℚ) : ℤ :=
  let ratio := advancers / (advancers + decliners)
  if ratio ≥ 0.75 then 100
  else if ratio ≥ 0.65 then 80
  else if ratio ≥ 0.55 then 60
  else if ratio ≥ 0.45 then 40
  else if ratio ≥ 0.35 then 20
  else 0

def percentAbove200MA (percent : ℚ) : ℤ :=
  if percent ≥ 80 then 100
  else if percent ≥ 70 then 85
  else if percent ≥ 60 then 70
  else if percent ≥ 50 then 50
  else if percent ≥ 40 then 35
  else if percent ≥ 30 then 20
  else 0

def newHighsVsLows (highs lows : ℚ) : ℤ :=
  if lows = 0 then (if highs > 0 then 100 else 50)
  else
    let ratio := highs / lows
    if ratio ≥ 5 then 100
    else if ratio ≥ 3 then 80
    else if ratio ≥ 1.5 then 65
    else if ratio ≥ 1 then 50
    else if ratio ≥ 0.5 then 35
    else if ratio ≥ 0.2 then 20
    else 0

def vix (value : ℚ) : ℤ :=
  if value ≤ 12 then 100
  else if value ≤ 15 then 85
  else if value ≤ 18 then 70
  else if value ≤ 22 then 55
  else if value ≤ 28 then 35
  else if value ≤ 35 then 20
  else 0

def putCallRatio (ratio : ℚ) : ℤ :=
  if ratio ≥ 1.3 then 90
  else if ratio ≥ 1.1 then 75
  else if ratio ≥ 0.9 then 60
  else if ratio ≥ 0.7 then 50
  else if ratio ≥ 0.6 then 40
  else if ratio ≥ 0.5 then 25
  else 10

def vixTermStructure (isContango : Bool) : ℤ :=
  if isContango then 70 else 30

def yieldCurve10Y2Y (spread : ℚ) : ℤ :=
  if spread ≥ 1.0 then 100
  else if spread ≥ 0.5 then 85
  else if spread ≥ 0.25 then 70
  else if spread ≥ 0 then 55
  else if spread ≥ -0.25 then 35
  else if spread ≥ -0.5 then 20
  else 0

def highYieldSpread (spread : ℚ) : ℤ :=
  if spread ≤ 2.5 then 100
  else if spread ≤ 3.5 then 80
  else if spread ≤ 4.5 then 60
  else if spread ≤ 5.5 then 45
  else if spread ≤ 7.0 then 30
  else if spread ≤ 9.0 then 15
  else 0

def investmentGradeSpread (spread : ℚ) : ℤ :=
  if spread ≤ 0.8 then 100
  else if spread ≤ 1.0 then 80
  else if spread ≤ 1.3 then 60
  else if spread ≤ 1.6 then 45
  else if spread ≤ 2.0 then 30
  else 10

def aaiiBulls (percent : ℚ) : ℤ :=
  if percent ≤ 20 then 95
  else if percent ≤ 30 then 75
  else if percent ≤ 40 then 55
  else if percent ≤ 50 then 40
  else if percent ≤ 60 then 25
  else 10

def aaiiBears (percent : ℚ) : ℤ :=
  if percent ≥ 50 then 95
  else if percent ≥ 40 then 75
  else if percent ≥ 30 then 55
  else if percent ≥ 25 then 45
  else if percent ≥ 20 then 30
  else 15

def fearGreedIndex (value : ℚ) : ℤ :=
  if value ≤ 10 then 95
  else if value ≤ 25 then 80
  else if value ≤ 40 then 60
  else if value ≤ 60 then 50
  else if value ≤ 75 then 35
  else if value ≤ 90 then 20
  else 5

def globalPMI (value : ℚ) : ℤ :=
  if value ≥ 57 then 100
  else if value ≥ 54 then 80
  else if value ≥ 51 then 65
  else if value ≥ 50 then 50
  else if value ≥ 48 then 35
  else if value ≥ 45 then 20
  else 0

def vstoxx (value : ℚ) : ℤ :=
  if value ≤ 12 then 100
  else if value ≤ 15 then 85
  else if value ≤ 18 then 70
  else if value ≤ 22 then 55
  else if value ≤ 28 then 35
  else 15

end scoringRules

/-- C2: every signal scoring rule maps every finite raw input into its
documented closed sub-range of `[0,100]`: `putCallRatio` into `[10,90]`,
`aaiiBulls` into `[10,95]`, `aaiiBears` into `[15,95]`, `fearGreedIndex` into
`[5,95]`, `investmentGradeSpread` into `[10,100]`, `vstoxx` into `[15,100]`,
`vixTermStructure` into `\x7b30,70\x7d`, the remaining rules into `[0,100]`;
in particular `advanceDeclineRatio` stays in range with a zero denominator
(`advancers + decliners = 0`), where it returns `0`. (The model is over `ℚ`,
in which every value is finite and no `NaN` exists; the JS `NaN` produced at
`0/0` fails every threshold comparison exactly as `0/0 = 0` does in `ℚ`.) -/
theorem signal_scores_bounded :
    (∀ x : ℚ, 0 ≤ scoringRules.priceVs200MA x ∧ scoringRules.priceVs200MA x ≤ 100) ∧
    (∀ a d : ℚ, 0 ≤ scoringRules.advanceDeclineRatio a d ∧
      scoringRules.advanceDeclineRatio a d ≤ 100) ∧
    (∀ x : ℚ, 0 ≤ scoringRules.percentAbove200MA x ∧ scoringRules.percentAbove200MA x ≤ 100) ∧
    (∀ h l : ℚ, 0 ≤ scoringRules.newHighsVsLows h l ∧ scoringRules.newHighsVsLows h l ≤ 100) ∧
    (∀ x : ℚ, 0 ≤ scoringRules.vix x ∧ scoringRules.vix x ≤ 100) ∧
    (∀ x : ℚ, 10 ≤ scoringRules.putCallRatio x ∧ scoringRules.putCallRatio x ≤ 90) ∧
    (∀ b : Bool, scoringRules.vixTermStructure b = 30 ∨ scoringRules.vixTermStructure b = 70) ∧
    (∀ x : ℚ, 0 ≤ scoringRules.yieldCurve10Y2Y x ∧ scoringRules.yieldCurve10Y2Y x ≤ 100) ∧
    (∀ x : ℚ, 0 ≤ scoringRules.highYieldSpread x ∧ scoringRules.highYieldSpread x ≤ 100) ∧
    (∀ x : ℚ, 10 ≤ scoringRules.investmentGradeSpread x ∧
      scoringRules.investmentGradeSpread x ≤ 100) ∧
    (∀ x : ℚ, 10 ≤ scoringRules.aaiiBulls x ∧ scoringRules.aaiiBulls x ≤ 95) ∧
    (∀ x : ℚ, 15 ≤ scoringRules.aaiiBears x ∧ scoringRules.aaiiBears x ≤ 95) ∧
    (∀ x : ℚ, 5 ≤ scoringRules.fearGreedIndex x ∧ scoringRules.fearGreedIndex x ≤ 95) ∧
    (∀ x : ℚ, 0 ≤ scoringRules.globalPMI x ∧ scoringRules.globalPMI x ≤ 100) ∧
    (∀ x : ℚ, 15 ≤ scoringRules.vstoxx x ∧ scoringRules.vstoxx x ≤ 100) ∧
    scoringRules.advanceDeclineRatio 0 0 = 0 := by
  refine ⟨?_, ?_, ?_, ?_, ?_, ?_, ?_, ?_, ?_, ?_, ?_, ?_, ?_, ?_, ?_, ?_⟩ <;>
    (intros
     simp only [scoringRules.priceVs200MA, scoringRules.advanceDeclineRatio,
       scoringRules.percentAbove200MA, scoringRules.newHighsVsLows, scoringRules.vix,
       scoringRules.putCallRatio, scoringRules.vixTermStructure, scoringRules.yieldCurve10Y2Y,
       scoringRules.highYieldSpread, scoringRules.investmentGradeSpread, scoringRules.aaiiBulls,
       scoringRules.aaiiBears, scoringRules.fearGreedIndex, scoringRules.globalPMI,
       scoringRules.vstoxx]
     repeat' split
     all_goals norm_num at *)

-- ============================================================================
-- Data model (src/src/types/marketCompass.ts) — fields feeding the score
-- pipeline; presentation-only fields (display strings) are kept as the
-- source's literal strings, deltas as rationals.
-- ============================================================================

structure Signal where
  name : String
  ticker : String
  score : ℤ
  threshold : String
  deriving Repr, DecidableEq

structure Pillar where
  weight : ℚ
  signals : List Signal
  score : ℤ
  deriving Repr, DecidableEq

structure Pillars where
  direction : Pillar
  breadth : Pillar
  volatility : Pillar
  credit : Pillar
  sentiment : Pillar
  global : Pillar
  deriving Repr, DecidableEq

/-- `Object.values(pillars)` in the literal insertion order of the source. -/
def Pillars.toList (p : Pillars) : List Pillar :=
  [p.direction, p.breadth, p.volatility, p.credit, p.sentiment, p.global]

structure IndexData where
  percentVs200MA : ℚ
  dailyChange : ℚ

structure BreadthData where
  advancers : ℚ
  decliners : ℚ
  percentAbove200MA : ℚ
  percentAbove200MAChange : ℚ
  newHighs : ℚ
  newLows : ℚ

structure VixData where
  value : ℚ
  dailyChange : ℚ
  isContango : Bool

structure PutCallData where
  ratio : ℚ
  change : ℚ

structure YieldCurveData where
  spread : ℚ
  change : ℚ

structure CreditData where
  hySpread : ℚ
  hySpreadChange : ℚ
  igSpread : ℚ
  igSpreadChange : ℚ

structure SentimentData where
  bulls : ℚ
  bullsChange : ℚ
  bears : ℚ
  bearsChange : ℚ
  fearGreed : ℚ
  fearGreedChange : ℚ

structure AcwiData where
  percentVs50MA : ℚ
  dailyChange : ℚ

structure VstoxxData where
  value : ℚ
  change : ℚ

structure PmiData where
  value : ℚ
  change : ℚ

structure GlobalData where
  acwi : AcwiData
  vstoxx : VstoxxData
  pmi : PmiData

structure MarketCompassRawData where
  spy : IndexData
  qqq : IndexData
  iwm : IndexData
  breadth : BreadthData
  vix : VixData
  putCall : PutCallData
  yieldCurve : YieldCurveData
  credit : CreditData
  sentiment : SentimentData
  global : GlobalData

-- ============================================================================
-- Pillar and composite calculation (src/unnamed/part_000)
-- ============================================================================

/-- The `forEach` body of `calculatePillarScores`:
`Math.round(signalScores.reduce((a, b) => a + b, 0) / signalScores.length)`. -/
def calcPillarScore (signals : List Signal) : ℤ :=
  let signalScores := signals.map Signal.score
  jsRound (((signalScores.foldl (· + ·) 0 : ℤ) : ℚ) / (signalScores.length : ℚ))

/-- `calculatePillarScores` of the source: builds the six pillars (hard-coded
weights, member signals scored by `scoringRules`, initial `score: 0`), then —
as the source's closing `forEach` does — overwrites every pillar's `score`
with the rounded mean of its signal scores. -/
def calculatePillarScores (rawData : MarketCompassRawData) : Pillars :=
  let pillars : Pillars :=
    { direction :=
        { weight := 0.25
          signals :=
            [ { name := "S&P 500 vs 200MA", ticker := "SPY"
                score := scoringRules.priceVs200MA rawData.spy.percentVs200MA
                threshold := "> 0% = above trend" },
              { name := "Nasdaq vs 200MA", ticker := "QQQ"
                score := scoringRules.priceVs200MA rawData.qqq.percentVs200MA
                threshold := "> 0% = above trend" },
              { name := "Russell 2000 vs 200MA", ticker := "IWM"
                score := scoringRules.priceVs200MA rawData.iwm.percentVs200MA
                threshold := "> 0% = above trend" } ]
          score := 0 }
      breadth :=
        { weight := 0.2
          signals :=
            [ { name := "Advance/Decline", ticker := "NYSE"
                score := scoringRules.advanceDeclineRatio rawData.breadth.advancers
                  rawData.breadth.decliners
                threshold := "> 50% advancing = healthy" },
              { name := "% Above 200-Day MA", ticker := "SPX"
                score := scoringRules.percentAbove200MA rawData.breadth.percentAbove200MA
                threshold := "> 60% = strong breadth" },
              { name := "New Highs vs Lows", ticker := "NYSE"
                score := scoringRules.newHighsVsLows rawData.breadth.newHighs
                  rawData.breadth.newLows
                threshold := "Highs > Lows = bullish" } ]
          score := 0 }
      volatility :=
        { weight := 0.15
          signals :=
            [ { name := "VIX", ticker := "VIX"
                score := scoringRules.vix rawData.vix.value
                threshold := "< 20 = calm markets" },
              { name := "Put/Call Ratio", ticker := "CBOE"
                score := scoringRules.putCallRatio rawData.putCall.ratio
                threshold := "0.7-1.0 = balanced" },
              { name := "VIX Term Structure", ticker := "VIX"
                score := scoringRules.vixTermStructure rawData.vix.isContango
                threshold := "Contango = normal" } ]
          score := 0 }
      credit :=
        { weight := 0.15
          signals :=
            [ { name := "Yield Curve (10Y-2Y)", ticker := "FRED"
                score := scoringRules.yieldCurve10Y2Y rawData.yieldCurve.spread
                threshold := "Positive = no recession signal" },
              { name := "High Yield Spread", ticker := "HYG"
                score := scoringRules.highYieldSpread rawData.credit.hySpread
                threshold := "< 4% = healthy" },
              { name := "IG Spread", ticker := "LQD"
                score := scoringRules.investmentGradeSpread rawData.credit.igSpread
                threshold := "< 1.5% = normal" } ]
          score := 0 }
      sentiment :=
        { weight := 0.1
          signals :=
            [ { name := "AAII Bulls", ticker := "AAII"
                score := scoringRules.aaiiBulls rawData.sentiment.bulls
                threshold := "< 40% = room to run" },
              { name := "AAII Bears", ticker := "AAII"
                score := scoringRules.aaiiBears rawData.sentiment.bears
                threshold := "> 30% = healthy fear" },
              { name := "Fear & Greed", ticker := "CNN"
                score := scoringRules.fearGreedIndex rawData.sentiment.fearGreed
                threshold := "< 50 = opportunity" } ]
          score := 0 }
      global :=
        { weight := 0.15
          signals :=
            [ { name := "MSCI World", ticker := "ACWI"
                score := scoringRules.priceVs200MA rawData.global.acwi.percentVs50MA
                threshold := "> 0% = above trend" },
              { name := "VSTOXX", ticker := "VSTOXX"
                score := scoringRules.vstoxx rawData.global.vstoxx.value
                threshold := "< 20 = calm Europe" },
              { name := "Global PMI", ticker := "PMI"
                score := scoringRules.globalPMI rawData.global.pmi.value
                threshold := "> 50 = expansion" } ]
          score := 0 } }
  { direction := { pillars.direction with score := calcPillarScore pillars.direction.signals }
    breadth := { pillars.breadth with score := calcPillarScore pillars.breadth.signals }
    volatility := { pillars.volatility with score := calcPillarScore pillars.volatility.signals }
    credit := { pillars.credit with score := calcPillarScore pillars.credit.signals }
    sentiment := { pillars.sentiment with score := calcPillarScore pillars.sentiment.signals }
    global := { pillars.global with score := calcPillarScore pillars.global.signals } }

/-- `calculateCompositeScore` of the source: accumulates `score × weight` and
the weight total over `Object.values(pillars)` and returns
`Math.round(totalScore / totalWeight)`. -/
def calculateCompositeScore (pillars : Pillars) : ℤ :=
  let totalScore :=
    pillars.toList.foldl (fun acc p => acc + (p.score : ℚ) * p.weight) 0
  let totalWeight := pillars.toList.foldl (fun acc p => acc + p.weight) 0
  jsRound (totalScore / totalWeight)

-- ============================================================================
-- Helper lemmas
-- ============================================================================

lemma foldl_add_eq_sum {M : Type} [AddCommMonoid M] (l : List M) (a : M) :
    l.foldl (· + ·) a = a + l.sum := by
  induction l generalizing a with
  | nil => simp
  | cons x xs ih => simp [ih, add_assoc]

/-- The closing `forEach` body evaluated on a three-signal pillar. -/
lemma calcPillarScore_three (s1 s2 s3 : Signal) :
    calcPillarScore [s1, s2, s3] =
      jsRound (((s1.score + s2.score + s3.score : ℤ) : ℚ) / 3) := by
  simp only [calcPillarScore, List.map, List.foldl, List.length]
  norm_num

/-- Statement-level pillar bundle: six pillar scores paired with the engine's
fixed weights (signal lists empty; `calculateCompositeScore` reads only
`score` and `weight`). -/
def mkPillarsWithScores (sd sb sv sc ss sg : ℤ) : Pillars :=
  { direction := { weight := 0.25, signals := [], score := sd }
    breadth := { weight := 0.2, signals := [], score := sb }
    volatility := { weight := 0.15, signals := [], score := sv }
    credit := { weight := 0.15, signals := [], score := sc }
    sentiment := { weight := 0.1, signals := [], score := ss }
    global := { weight := 0.15, signals := [], score := sg } }

/-- A concrete raw-data snapshot (volatility inputs are the spec's scenario:
vol index 14, put/call ratio 0.95, contango regime). -/
def rdExample : MarketCompassRawData :=
  { spy := { percentVs200MA := 3, dailyChange := 0 }
    qqq := { percentVs200MA := 4, dailyChange := 0 }
    iwm := { percentVs200MA := -1, dailyChange := 0 }
    breadth := { advancers := 2000, decliners := 1000, percentAbove200MA := 65
                 percentAbove200MAChange := 0, newHighs := 120, newLows := 40 }
    vix := { value := 14, dailyChange := 0, isContango := true }
    putCall := { ratio := 0.95, change := 0 }
    yieldCurve := { spread := 0.5, change := 0 }
    credit := { hySpread := 3, hySpreadChange := 0, igSpread := 1.1, igSpreadChange := 0 }
    sentiment := { bulls := 35, bullsChange := 0, bears := 28, bearsChange := 0
                   fearGreed := 55, fearGreedChange := 0 }
    global := { acwi := { percentVs50MA := 2, dailyChange := 0 }
                vstoxx := { value := 16, change := 0 }
                pmi := { value := 52, change := 0 } } }

lemma composite_of_fixed_weights (p : Pillars)
    (hd : p.direction.weight = 0.25) (hb : p.breadth.weight = 0.2)
    (hv : p.volatility.weight = 0.15) (hc : p.credit.weight = 0.15)
    (hs : p.sentiment.weight = 0.1) (hg : p.global.weight = 0.15) :
    calculateCompositeScore p =
      jsRound ((p.direction.score : ℚ) * 0.25 + (p.breadth.score : ℚ) * 0.2
        + (p.volatility.score : ℚ) * 0.15 + (p.credit.score : ℚ) * 0.15
        + (p.sentiment.score : ℚ) * 0.1 + (p.global.score : ℚ) * 0.15) := by
  simp only [calculateCompositeScore, Pillars.toList, List.foldl, hd, hb, hv, hc, hs, hg]
  congr 1
  norm_num

/-- C1: the composite equals `round(Σ pillar.score × pillar.weight)` with the
fixed weights direction `.25`, breadth `.20`, volatility `.15`, credit `.15`,
sentiment `.10`, global `.15` — both for arbitrary pillar scores paired with
those weights and for the pillars the engine actually builds (whose division
by the weight total divides by exactly `1`); for pillar scores
`70, 60, 72, 55, 45, 65` the composite is `63`. -/
theorem composite_is_weighted_round :
    (∀ sd sb sv sc ss sg : ℤ,
      calculateCompositeScore (mkPillarsWithScores sd sb sv sc ss sg) =
        jsRound ((sd : ℚ) * 0.25 + (sb : ℚ) * 0.2 + (sv : ℚ) * 0.15
          + (sc : ℚ) * 0.15 + (ss : ℚ) * 0.1 + (sg : ℚ) * 0.15)) ∧
    (∀ rd : MarketCompassRawData,
      calculateCompositeScore (calculatePillarScores rd) =
        jsRound (((calculatePillarScores rd).direction.score : ℚ) * 0.25
          + ((calculatePillarScores rd).breadth.score : ℚ) * 0.2
          + ((calculatePillarScores rd).volatility.score : ℚ) * 0.15
          + ((calculatePillarScores rd).credit.score : ℚ) * 0.15
          + ((calculatePillarScores rd).sentiment.score : ℚ) * 0.1
          + ((calculatePillarScores rd).global.score : ℚ) * 0.15)) ∧
    calculateCompositeScore (mkPillarsWithScores 70 60 72 55 45 65) = 63 := by
  refine ⟨fun sd sb sv sc ss sg => composite_of_fixed_weights _ rfl rfl rfl rfl rfl rfl,
    fun rd => composite_of_fixed_weights _ rfl rfl rfl rfl rfl rfl, ?_⟩
  rw [composite_of_fixed_weights _ rfl rfl rfl rfl rfl rfl]
  norm_num [mkPillarsWithScores, jsRound]

/-- A pillar bundle whose weights sum to `0.6`, not `1.0`. -/
def badWeightPillars : Pillars :=
  { direction := { weight := 0.1, signals := [], score := 80 }
    breadth := { weight := 0.1, signals := [], score := 40 }
    volatility := { weight := 0.1, signals := [], score := 60 }
    credit := { weight := 0.1, signals := [], score := 60 }
    sentiment := { weight := 0.1, signals := [], score := 60 }
    global := { weight := 0.1, signals := [], score := 60 } }

/-- C5 counterexample: composite computation proceeds — no error path exists
and a numeric result is produced — on pillars whose weights sum to `0.6 ≠ 1`:
nothing validates the weight sum. -/
theorem composite_no_weight_validation :
    ((badWeightPillars.toList.map Pillar.weight).sum = 0.6) ∧ ((0.6 : ℚ) ≠ 1) ∧
    calculateCompositeScore badWeightPillars = 60 := by
  refine ⟨by norm_num [badWeightPillars, Pillars.toList], by norm_num, ?_⟩
  norm_num [calculateCompositeScore, badWeightPillars, Pillars.toList, jsRound]

/-- C5 amended: there is no construction-time validation of the weight sum;
instead the hard-coded weights of the pillars the engine builds do sum to
`1.0`, and `calculateCompositeScore` divides the weighted score total by the
actual weight total, so it computes a weight-normalized composite for any
pillar bundle whatsoever. -/
theorem composite_weight_normalization :
    (∀ rd : MarketCompassRawData,
      ((calculatePillarScores rd).toList.map Pillar.weight).sum = 1) ∧
    (∀ p : Pillars,
      calculateCompositeScore p =
        jsRound ((p.toList.map (fun q => (q.score : ℚ) * q.weight)).sum /
          (p.toList.map Pillar.weight).sum)) := by
  constructor
  · intro rd
    norm_num [calculatePillarScores, Pillars.toList]
  · intro p
    simp only [calculateCompositeScore, Pillars.toList, List.foldl, List.map, List.sum_cons,
      List.sum_nil]
    congr 2 <;> ring

/-- A bare signal carrying only a score (statement-level constructor for
permutation and scenario statements). -/
def mkSignal (s : ℤ) : Signal :=
  { name := "", ticker := "", score := s, threshold := "" }

/-- C8: every pillar the engine builds has exactly 3 signals and its score is
the round-half-up of the arithmetic mean of their scores; the rounded mean is
invariant under permutation of the signals; signal scores `85, 60, 70` give
pillar score `72`, as does the concrete snapshot `rdExample` whose volatility
signals score `85, 60, 70`. -/
theorem pillar_score_is_rounded_mean :
    (∀ rd : MarketCompassRawData, ∀ pl ∈ (calculatePillarScores rd).toList,
      pl.signals.length = 3 ∧
      pl.score = jsRound (((pl.signals.map Signal.score).sum : ℚ) / 3)) ∧
    (∀ sigs sigs' : List Signal, sigs.Perm sigs' →
      calcPillarScore sigs = calcPillarScore sigs') ∧
    (∀ a b c : ℤ, calcPillarScore [mkSignal a, mkSignal b, mkSignal c] =
      jsRound (((a + b + c : ℤ) : ℚ) / 3)) ∧
    calcPillarScore [mkSignal 85, mkSignal 60, mkSignal 70] = 72 ∧
    (calculatePillarScores rdExample).volatility.score = 72 := by
  refine ⟨?_, ?_, ?_, ?_, ?_⟩
  · intro rd pl hpl
    simp only [calculatePillarScores, Pillars.toList, List.mem_cons,
      List.not_mem_nil, or_false] at hpl
    rcases hpl with h | h | h | h | h | h <;> subst h <;>
      refine ⟨rfl, ?_⟩ <;>
      (rw [calcPillarScore_three]
       congr 1
       simp only [List.map, List.sum_cons, List.sum_nil]
       push_cast
       ring)
  · intro sigs sigs' hperm
    have hmap : (sigs.map Signal.score).Perm (sigs'.map Signal.score) := hperm.map _
    simp only [calcPillarScore]
    rw [foldl_add_eq_sum, foldl_add_eq_sum, hmap.sum_eq, hmap.length_eq]
  · intro a b c
    rw [calcPillarScore_three]
    simp [mkSignal]
  · rw [calcPillarScore_three]
    norm_num [mkSignal, jsRound]
  · show calcPillarScore _ = 72
    rw [calcPillarScore_three]
    norm_num [rdExample, scoringRules.vix, scoringRules.putCallRatio,
      scoringRules.vixTermStructure, jsRound]

-- ============================================================================
-- Score history store (src/src/utils/scoreHistory.ts)
-- ============================================================================

/-- One persisted day of history. The source keys entries by the `YYYY-MM-DD`
date string; `localeCompare` on such fixed-width ISO strings is exactly the
chronological order of the dates, so the embedding uses an order-isomorphic
integer day key. -/
structure ScoreEntry where
  date : ℕ
  composite : ℚ
  pillars : List (String × ℚ)
  deriving Repr, DecidableEq

def MAX_HISTORY_DAYS : ℕ := 60

/-- The sort comparator of `saveScore`:
`(a, b) => b.date.localeCompare(a.date)` sorts by date descending
(newest first), so `a` precedes `b` when `b.date ≤ a.date`. -/
def byDateDesc (a b : ScoreEntry) : Prop := b.date ≤ a.date

instance : DecidableRel byDateDesc :=
  fun a b => inferInstanceAs (Decidable (b.date ≤ a.date))

instance : IsTotal ScoreEntry byDateDesc := ⟨fun a b => le_total b.date a.date⟩

instance : IsTrans ScoreEntry byDateDesc := ⟨fun _ _ _ hab hbc => le_trans hbc hab⟩

/-- `saveScore` of the source, with the parsed history as explicit state and
`today` (the calendar-date string `new Date().toISOString().split('T')[0]`)
as a parameter: drop any entry for today, push today's entry, sort newest
first, keep the first `MAX_HISTORY_DAYS` entries. -/
def saveScore (today : ℕ) (compositeScore : ℚ) (pillarScores : List (String × ℚ))
    (history : List ScoreEntry) : List ScoreEntry :=
  let filtered := history.filter (fun e => e.date ≠ today)
  let pushed := filtered ++ [⟨today, compositeScore, pillarScores⟩]
  let sorted := pushed.insertionSort byDateDesc
  sorted.take MAX_HISTORY_DAYS

/-- `getPercentile30d` of the source: `null` below 30 stored entries, else
`Math.round((scoresBelow / 30) * 100)` where `scoresBelow` counts, over the 30
most recent composites, those strictly below the queried score. -/
def getPercentile30d (history : List ScoreEntry) (todayScore : ℚ) : Option ℤ :=
  if history.length < 30 then none
  else
    let last30Scores := (history.take 30).map ScoreEntry.composite
    let scoresBelow := (last30Scores.filter (fun score => score < todayScore)).length
    some (jsRound (((scoresBelow : ℚ) / 30) * 100))

lemma jsRound_le_jsRound {q q' : ℚ} (h : q ≤ q') : jsRound q ≤ jsRound q' :=
  Int.floor_le_floor (by linarith)

lemma filter_lt_length_mono (l : List ℚ) {t t' : ℚ} (h : t ≤ t') :
    (l.filter (fun s => s < t)).length ≤ (l.filter (fun s => s < t')).length := by
  induction l with
  | nil => simp
  | cons x xs ih =>
    by_cases hx : x < t
    · have hx' : x < t' := lt_of_lt_of_le hx h
      simp [List.filter, hx, hx']
      omega
    · by_cases hx' : x < t'
      · simp [List.filter, hx, hx']
        omega
      · simpa [List.filter, hx, hx'] using ih

/-- C3: `getPercentile30d` returns `none` whenever fewer than 30 entries are
stored; with at least 30 entries it returns `round(100 × count / 30)` where
`count` is the number of the 30 most recent stored composites strictly below
the queried score (ties excluded); any returned value lies in `[0,100]`, and
for a fixed history the result is non-decreasing in the queried score. -/
theorem getPercentile30d_spec :
    (∀ (h : List ScoreEntry) (t : ℚ), h.length < 30 → getPercentile30d h t = none) ∧
    (∀ (h : List ScoreEntry) (t : ℚ), 30 ≤ h.length →
      getPercentile30d h t = some (jsRound (100 *
        ((((h.take 30).map ScoreEntry.composite).filter (fun s => s < t)).length : ℚ) / 30))) ∧
    (∀ (h : List ScoreEntry) (t : ℚ) (r : ℤ), getPercentile30d h t = some r →
      0 ≤ r ∧ r ≤ 100) ∧
    (∀ (h : List ScoreEntry) (t t' : ℚ) (r r' : ℤ), t ≤ t' →
      getPercentile30d h t = some r → getPercentile30d h t' = some r' → r ≤ r') := by
  refine ⟨?_, ?_, ?_, ?_⟩
  · intro h t hlen
    simp [getPercentile30d, hlen]
  · intro h t hlen
    rw [getPercentile30d, if_neg (by omega)]
    congr 2
    ring
  · intro h t r hr
    rw [getPercentile30d] at hr
    split at hr
    · exact absurd hr (by simp)
    · have hr' : r = jsRound
          ((((((h.take 30).map ScoreEntry.composite).filter (fun s => s < t)).length : ℚ) / 30)
            * 100) := by
        simpa using hr.symm
      have hc : ((((h.take 30).map ScoreEntry.composite).filter (fun s => s < t)).length : ℚ)
          ≤ 30 := by
        have h1 : (((h.take 30).map ScoreEntry.composite).filter (fun s => s < t)).length
            ≤ ((h.take 30).map ScoreEntry.composite).length := List.length_filter_le _ _
        have h2 : ((h.take 30).map ScoreEntry.composite).length ≤ 30 := by
          rw [List.length_map]
          exact le_trans (List.length_take_le _ _) (le_refl _)
        have := le_trans h1 h2
        exact_mod_cast this
      have hc0 : (0 : ℚ) ≤
          ((((h.take 30).map ScoreEntry.composite).filter (fun s => s < t)).length : ℚ) := by
        positivity
      constructor
      · rw [hr']
        have : (0 : ℚ) ≤
            ((((h.take 30).map ScoreEntry.composite).filter (fun s => s < t)).length : ℚ)
              / 30 * 100 := by positivity
        unfold jsRound
        exact Int.floor_nonneg.mpr (by linarith)
      · rw [hr']
        have hq : ((((h.take 30).map ScoreEntry.composite).filter
            (fun s => s < t)).length : ℚ) / 30 * 100 ≤ 100 := by
          rw [div_mul_eq_mul_div, div_le_iff (by norm_num)]
          linarith
        calc jsRound _ ≤ jsRound 100 := jsRound_le_jsRound hq
          _ = 100 := by unfold jsRound; norm_num
  · intro h t t' r r' htt hr hr'
    rw [getPercentile30d] at hr hr'
    split at hr
    · exact absurd hr (by simp)
    · rw [if_neg (by assumption)] at hr'
      have hr2 : r = jsRound
          ((((((h.take 30).map ScoreEntry.composite).filter (fun s => s < t)).length : ℚ) / 30)
            * 100) := by simpa using hr.symm
      have hr2' : r' = jsRound
          ((((((h.take 30).map ScoreEntry.composite).filter (fun s => s < t')).length : ℚ) / 30)
            * 100) := by simpa using hr'.symm
      rw [hr2, hr2']
      apply jsRound_le_jsRound
      have hmono := filter_lt_length_mono ((h.take 30).map ScoreEntry.composite) htt
      have : ((((h.take 30).map ScoreEntry.composite).filter (fun s => s < t)).length : ℚ)
          ≤ ((((h.take 30).map ScoreEntry.composite).filter (fun s => s < t')).length : ℚ) := by
        exact_mod_cast hmono
      linarith

/-- A concrete 30-day history (dates 1..30, composite 50 each day). -/
def hist30 : List ScoreEntry := [⟨1, 50, []⟩, ⟨2, 50, []⟩, ⟨3, 50, []⟩, ⟨4, 50, []⟩, ⟨5, 50, []⟩, ⟨6, 50, []⟩, ⟨7, 50, []⟩, ⟨8, 50, []⟩, ⟨9, 50, []⟩, ⟨10, 50, []⟩, ⟨11, 50, []⟩, ⟨12, 50, []⟩, ⟨13, 50, []⟩, ⟨14, 50, []⟩, ⟨15, 50, []⟩, ⟨16, 50, []⟩, ⟨17, 50, []⟩, ⟨18, 50, []⟩, ⟨19, 50, []⟩, ⟨20, 50, []⟩, ⟨21, 50, []⟩, ⟨22, 50, []⟩, ⟨23, 50, []⟩, ⟨24, 50, []⟩, ⟨25, 50, []⟩, ⟨26, 50, []⟩, ⟨27, 50, []⟩, ⟨28, 50, []⟩, ⟨29, 50, []⟩, ⟨30, 50, []⟩]

/-- Witness for `getPercentile30d_spec` at concrete inputs: an empty history
gives `none`; with 30 stored days of composite 50, querying 60 gives 100 (all
30 below), querying 40 gives 0, and the range and monotonicity parts apply. -/
theorem getPercentile30d_spec_witness :
    getPercentile30d [] 60 = none ∧
    getPercentile30d hist30 60 = some 100 ∧
    getPercentile30d hist30 40 = some 0 ∧
    (0 ≤ (100 : ℤ) ∧ (100 : ℤ) ≤ 100) ∧
    ((0 : ℤ) ≤ 100) := by
  have hlen : (30 : ℕ) ≤ hist30.length := by norm_num [hist30]
  have h60 : getPercentile30d hist30 60 = some 100 := by
    rw [getPercentile30d_spec.2.1 hist30 60 hlen]
    norm_num [hist30, jsRound]
  have h40 : getPercentile30d hist30 40 = some 0 := by
    rw [getPercentile30d_spec.2.1 hist30 40 hlen]
    norm_num [hist30, jsRound]
  exact ⟨getPercentile30d_spec.1 [] 60 (by simp),
    h60, h40,
    getPercentile30d_spec.2.2.1 hist30 60 100 h60,
    getPercentile30d_spec.2.2.2 hist30 40 60 0 100 (by norm_num) h40 h60⟩

/-- Today's entry, as pushed by `saveScore`. -/
def todayEntry (today : ℕ) (c : ℚ) (p : List (String × ℚ)) : ScoreEntry :=
  ⟨today, c, p⟩

lemma saveScore_eq (today : ℕ) (c : ℚ) (p : List (String × ℚ)) (h : List ScoreEntry) :
    saveScore today c p h =
      ((h.filter (fun e => e.date ≠ today) ++ [todayEntry today c p]).insertionSort
        byDateDesc).take 60 := rfl

lemma mem_pushed_date_le {today : ℕ} {c : ℚ} {p : List (String × ℚ)} {h : List ScoreEntry}
    (hmono : ∀ e ∈ h, e.date ≤ today) :
    ∀ e ∈ h.filter (fun x => x.date ≠ today) ++ [todayEntry today c p], e.date ≤ today := by
  intro e he
  rcases List.mem_append.mp he with h3 | h3
  · exact hmono e (List.mem_of_mem_filter h3)
  · rw [List.mem_singleton] at h3
    subst h3
    exact le_refl _

lemma mem_saveScore_date_le {today : ℕ} {c : ℚ} {p : List (String × ℚ)} {h : List ScoreEntry}
    (hmono : ∀ e ∈ h, e.date ≤ today) :
    ∀ e ∈ saveScore today c p h, e.date ≤ today := by
  intro e he
  rw [saveScore_eq] at he
  have h1 := List.mem_of_mem_take he
  have h2 := (List.perm_insertionSort byDateDesc _).mem_iff.mp h1
  exact mem_pushed_date_le hmono e h2

lemma sorted_max_cons (L : List ScoreEntry) (x : ScoreEntry)
    (hmem : x ∈ L)
    (hle : ∀ e ∈ L, e.date ≤ x.date)
    (huniq : ∀ e ∈ L, e.date = x.date → e = x)
    (hone : L.count x = 1) :
    ∃ t, L.insertionSort byDateDesc = x :: t ∧ ∀ e ∈ t, e.date ≠ x.date := by
  have hperm : (L.insertionSort byDateDesc).Perm L := List.perm_insertionSort byDateDesc L
  have hsort : (L.insertionSort byDateDesc).Sorted byDateDesc :=
    List.sorted_insertionSort byDateDesc L
  obtain ⟨hd, tl, hcase⟩ : ∃ hd tl, L.insertionSort byDateDesc = hd :: tl := by
    cases hc : L.insertionSort byDateDesc with
    | nil =>
      rw [hc] at hperm
      rw [← hperm.mem_iff] at hmem
      simp at hmem
    | cons a b => exact ⟨a, b, rfl⟩
  rw [hcase] at hperm hsort
  rw [hcase]
  have hxmem : x ∈ hd :: tl := hperm.mem_iff.mpr hmem
  have hcnt : (hd :: tl).count x = 1 := by rw [hperm.count_eq]; exact hone
  have hhd : hd = x := by
    rcases List.mem_cons.mp hxmem with h3 | h3
    · exact h3.symm
    · have h4 := (List.pairwise_cons.mp hsort).1 x h3
      have h5 : hd.date ≤ x.date := hle hd (hperm.mem_iff.mp (List.mem_cons_self _ _))
      exact huniq hd (hperm.mem_iff.mp (List.mem_cons_self _ _)) (le_antisymm h5 h4)
  subst hhd
  rw [List.count_cons_self] at hcnt
  have htl0 : tl.count hd = 0 := by omega
  refine ⟨tl, rfl, ?_⟩
  intro e he hdate
  have hemem : e ∈ hd :: tl := List.mem_cons_of_mem _ he
  have := huniq e (hperm.mem_iff.mp hemem) hdate
  subst this
  exact absurd he (List.count_eq_zero.mp htl0)

lemma saveScore_sorted_cons {today : ℕ} {c : ℚ} {p : List (String × ℚ)} {h : List ScoreEntry}
    (hmono : ∀ e ∈ h, e.date ≤ today) :
    ∃ t, (h.filter (fun x => x.date ≠ today) ++ [todayEntry today c p]).insertionSort byDateDesc
        = todayEntry today c p :: t ∧ ∀ e ∈ t, e.date ≠ today := by
  have hx : (todayEntry today c p).date = today := rfl
  have := sorted_max_cons (h.filter (fun x => x.date ≠ today) ++ [todayEntry today c p])
    (todayEntry today c p)
    (List.mem_append_right _ (List.mem_singleton.mpr rfl))
    (by rw [hx]; exact mem_pushed_date_le hmono)
    ?_ ?_
  · rw [hx] at this
    exact this
  · intro e he hdate
    rcases List.mem_append.mp he with h3 | h3
    · have h4 := List.of_mem_filter h3
      rw [hx] at hdate
      simp only [decide_eq_true_eq] at h4
      exact absurd hdate h4
    · rw [List.mem_singleton] at h3
      exact h3
  · rw [List.count_append]
    have h0 : (h.filter (fun x => x.date ≠ today)).count (todayEntry today c p) = 0 := by
      rw [List.count_eq_zero]
      intro hmem
      have h4 := List.of_mem_filter hmem
      simp only [decide_eq_true_eq] at h4
      exact h4 hx
    rw [h0]
    simp

lemma saveScore_filter_today {today : ℕ} {c : ℚ} {p : List (String × ℚ)} {h : List ScoreEntry}
    (hmono : ∀ e ∈ h, e.date ≤ today) :
    (saveScore today c p h).filter (fun e => e.date = today) = [todayEntry today c p] := by
  obtain ⟨t, hcase, ht⟩ := saveScore_sorted_cons (c := c) (p := p) hmono
  rw [saveScore_eq, hcase]
  rw [show (60 : ℕ) = 59 + 1 from rfl, List.take_succ_cons, List.filter_cons]
  have hcond : (decide ((todayEntry today c p).date = today)) = true := by
    simp [todayEntry]
  rw [hcond]
  simp only [if_true]
  have hnil : (t.take 59).filter (fun e => decide (e.date = today)) = [] := by
    rw [List.filter_eq_nil]
    intro a ha
    have := ht a (List.mem_of_mem_take ha)
    simpa using this
  rw [hnil]

/-- C7: after any sequence of `saveScore` calls the stored history holds at
most one entry per calendar-date key (date-key `Nodup` is established and
preserved); with save dates following the wall clock (every stored date at
most today's, as `new Date()` guarantees), a save leaves exactly one entry
for today carrying the given values, and a second save on the same date
replaces the first, leaving that date's entry with the second call's values;
the history never exceeds 60 entries, is kept sorted newest first, and any
entry evicted by the 60-entry cap is no newer than every kept entry. -/
theorem saveScore_history_invariants :
    (∀ (today : ℕ) (c : ℚ) (p : List (String × ℚ)) (h : List ScoreEntry),
      (saveScore today c p h).length ≤ 60) ∧
    (∀ (today : ℕ) (c : ℚ) (p : List (String × ℚ)) (h : List ScoreEntry),
      ((h.map ScoreEntry.date).Nodup) →
      ((saveScore today c p h).map ScoreEntry.date).Nodup) ∧
    (∀ (today : ℕ) (c : ℚ) (p : List (String × ℚ)) (h : List ScoreEntry),
      (saveScore today c p h).Pairwise byDateDesc) ∧
    (∀ (today : ℕ) (c : ℚ) (p : List (String × ℚ)) (h : List ScoreEntry),
      (∀ e ∈ h, e.date ≤ today) →
      (saveScore today c p h).filter (fun e => e.date = today) = [todayEntry today c p]) ∧
    (∀ (today : ℕ) (c : ℚ) (p : List (String × ℚ)) (c' : ℚ) (p' : List (String × ℚ))
      (h : List ScoreEntry), (∀ e ∈ h, e.date ≤ today) →
      (saveScore today c' p' (saveScore today c p h)).filter (fun e => e.date = today)
        = [todayEntry today c' p']) ∧
    (∀ (today : ℕ) (c : ℚ) (p : List (String × ℚ)) (h : List ScoreEntry),
      ∀ e ∈ h.filter (fun x => x.date ≠ today) ++ [todayEntry today c p],
      e ∉ saveScore today c p h → ∀ e' ∈ saveScore today c p h, e.date ≤ e'.date) := by
  refine ⟨?_, ?_, ?_, ?_, ?_, ?_⟩
  · intro today c p h
    rw [saveScore_eq]
    exact List.length_take_le _ _
  · intro today c p h hnodup
    rw [saveScore_eq]
    apply List.Nodup.sublist ((List.take_sublist _ _).map ScoreEntry.date)
    apply (((List.perm_insertionSort byDateDesc _).map ScoreEntry.date).nodup_iff).mpr
    rw [List.map_append]
    apply List.Nodup.append
    · exact hnodup.sublist ((List.filter_sublist _).map ScoreEntry.date)
    · simp
    · intro a ha hb
      simp only [todayEntry, List.map_cons, List.map_nil, List.mem_singleton] at hb
      subst hb
      obtain ⟨e, he, hdate⟩ := List.mem_map.mp ha
      have := List.of_mem_filter he
      simp only [decide_eq_true_eq] at this
      exact this hdate
  · intro today c p h
    rw [saveScore_eq]
    exact List.Pairwise.sublist (List.take_sublist _ _)
      (List.sorted_insertionSort byDateDesc _)
  · intro today c p h hmono
    exact saveScore_filter_today hmono
  · intro today c p c' p' h hmono
    exact saveScore_filter_today (mem_saveScore_date_le hmono)
  · intro today c p h e he hnotin e' he'
    rw [saveScore_eq] at hnotin he'
    have hperm := List.perm_insertionSort byDateDesc
      (h.filter (fun x => x.date ≠ today) ++ [todayEntry today c p])
    have hsort := List.sorted_insertionSort byDateDesc
      (h.filter (fun x => x.date ≠ today) ++ [todayEntry today c p])
    have hesort : e ∈ (h.filter (fun x => x.date ≠ today)
        ++ [todayEntry today c p]).insertionSort byDateDesc := hperm.mem_iff.mpr he
    rw [← List.take_append_drop 60 ((h.filter (fun x => x.date ≠ today)
        ++ [todayEntry today c p]).insertionSort byDateDesc)] at hesort
    rcases List.mem_append.mp hesort with h1 | h1
    · exact absurd h1 hnotin
    · have hp : (((h.filter (fun x => x.date ≠ today)
          ++ [todayEntry today c p]).insertionSort byDateDesc).take 60
          ++ ((h.filter (fun x => x.date ≠ today)
          ++ [todayEntry today c p]).insertionSort byDateDesc).drop 60).Pairwise byDateDesc := by
        rw [List.take_append_drop]
        exact hsort
      exact (List.pairwise_append.mp hp).2.2 e' he' e h1

/-- Witness for `saveScore_history_invariants` at concrete inputs: saving day
3 over a two-day history keeps the invariants, and saving day 3 twice leaves
exactly the second entry for day 3. -/
theorem saveScore_history_invariants_witness :
    (saveScore 3 50 [("direction", 70)] [⟨2, 45, []⟩, ⟨1, 40, []⟩]).length ≤ 60 ∧
    ((saveScore 3 50 [("direction", 70)] [⟨2, 45, []⟩, ⟨1, 40, []⟩]).map ScoreEntry.date).Nodup ∧
    (saveScore 3 50 [("direction", 70)] [⟨2, 45, []⟩, ⟨1, 40, []⟩]).Pairwise byDateDesc ∧
    (saveScore 3 50 [] [⟨2, 45, []⟩]).filter (fun e => e.date = 3) = [todayEntry 3 50 []] ∧
    (saveScore 3 60 [] (saveScore 3 50 [] [⟨2, 45, []⟩])).filter (fun e => e.date = 3)
      = [todayEntry 3 60 []] := by
  refine ⟨saveScore_history_invariants.1 3 50 [("direction", 70)] _,
    saveScore_history_invariants.2.1 3 50 [("direction", 70)] _ ?_,
    saveScore_history_invariants.2.2.1 3 50 [("direction", 70)] _,
    saveScore_history_invariants.2.2.2.1 3 50 [] _ ?_,
    saveScore_history_invariants.2.2.2.2.1 3 50 [] 60 [] _ ?_⟩
  · simp
  · intro e he
    simp only [List.mem_singleton] at he
    subst he
    norm_num
  · intro e he
    simp only [List.mem_singleton] at he
    subst he
    norm_num

-- ============================================================================
-- Retrying fetcher (src/src/utils/retryHelper.ts, `fetchWithRetry`)
-- ============================================================================

/-- What one `fetch(url)` attempt yields: a success response whose parsed body
is `v` (`response.ok`), a non-ok HTTP response with the given status, or a
network-level failure (fetch rejects). -/
inductive FetchOutcome (V : Type) where
  | ok (v : V)
  | http (status : ℕ)
  | netError
  deriving Repr, DecidableEq

inductive FetchError where
  | httpError (status : ℕ)
  | networkError
  | maxRetriesExceeded
  deriving Repr, DecidableEq

/-- Outcome of `fetchWithRetry`, instrumented with the number of `fetch`
attempts performed and the total backoff delay slept. -/
inductive FetchResult (V : Type) where
  | success (v : V) (attempts : ℕ) (totalDelay : ℕ)
  | failure (e : FetchError) (attempts : ℕ) (totalDelay : ℕ)
  deriving Repr, DecidableEq

/-- The `for (let i = 0; i < maxRetries; i++)` loop body of `fetchWithRetry`,
with `responses i` the outcome of the `i`-th attempt and `fuel` the remaining
iterations (`maxRetries - i`). A non-ok, non-429 status throws inside the
`try` block; that throw is caught by the loop's own `catch`, which rethrows
only on the last iteration (`i = maxRetries - 1`) and otherwise sleeps
`baseDelay * 2^i` and continues — exactly as the source's `catch` does for
network errors. A 429 sleeps and continues without a last-iteration check;
falling out of the loop raises `Max retries exceeded`. -/
def fetchLoop {V : Type} (responses : ℕ → FetchOutcome V) (maxRetries baseDelay : ℕ) :
    ℕ → ℕ → ℕ → ℕ → FetchResult V
  | _, 0, attempts, delay => .failure .maxRetriesExceeded attempts delay
  | i, fuel + 1, attempts, delay =>
    match responses i with
    | .ok v => .success v (attempts + 1) delay
    | .http s =>
      if s = 429 then
        fetchLoop responses maxRetries baseDelay (i + 1) fuel (attempts + 1)
          (delay + baseDelay * 2 ^ i)
      else if i = maxRetries - 1 then .failure (.httpError s) (attempts + 1) delay
      else
        fetchLoop responses maxRetries baseDelay (i + 1) fuel (attempts + 1)
          (delay + baseDelay * 2 ^ i)
    | .netError =>
      if i = maxRetries - 1 then .failure .networkError (attempts + 1) delay
      else
        fetchLoop responses maxRetries baseDelay (i + 1) fuel (attempts + 1)
          (delay + baseDelay * 2 ^ i)

/-- `fetchWithRetry` of the source (defaults: `maxRetries = 3`,
`baseDelay = 1000` from `RETRY_CONFIG`). -/
def fetchWithRetry {V : Type} (responses : ℕ → FetchOutcome V) (maxRetries baseDelay : ℕ) :
    FetchResult V :=
  fetchLoop responses maxRetries baseDelay 0 maxRetries 0 0

/-- C4 is a code bug: the `throw new Error(HTTP ...)` for a non-success,
non-429 status sits inside the `try` block, so the loop's own `catch` (whose
comment says it handles network errors) swallows it and retries with
exponential backoff instead of raising immediately. With the default
`maxRetries = 3`, `baseDelay = 1000`: if attempt 0 answers HTTP 500 and
attempt 1 succeeds with body `7`, the call sleeps 1000 ms and returns the
value on a second attempt — the claim requires it to raise after attempt 0
with no wait; if every attempt answers HTTP 500, all 3 attempts and 3000 ms
of backoff are consumed before the HTTP error propagates. -/
theorem fetchWithRetry_retries_non429 :
    fetchWithRetry (fun i => if i = 0 then FetchOutcome.http 500 else FetchOutcome.ok (7 : ℕ))
        3 1000 = FetchResult.success 7 2 1000 ∧
    fetchWithRetry (fun _ => (FetchOutcome.http 500 : FetchOutcome ℕ)) 3 1000
        = FetchResult.failure (FetchError.httpError 500) 3 3000 := by
  constructor <;> rfl

-- ============================================================================
-- LocalStorage cache (src/src/services/breadthService.ts, `LocalStorageCache`)
-- ============================================================================

structure CacheEntry (V : Type) where
  data : V
  timestamp : ℤ
  ttl : ℤ
  deriving Repr, DecidableEq

/-- `localStorage.getItem` over the store modelled as an association list
(one entry per key). -/
def getItem {V : Type} : List (String × CacheEntry V) → String → Option (CacheEntry V)
  | [], _ => none
  | (k', e) :: rest, k => if k' = k then some e else getItem rest k

/-- `localStorage.setItem`: replaces any entry at the key. -/
def setItem {V : Type} (store : List (String × CacheEntry V)) (k : String)
    (e : CacheEntry V) : List (String × CacheEntry V) :=
  store.filter (fun p => p.1 ≠ k) ++ [(k, e)]

/-- `localStorage.removeItem`. -/
def removeItem {V : Type} (store : List (String × CacheEntry V)) (k : String) :
    List (String × CacheEntry V) :=
  store.filter (fun p => p.1 ≠ k)

/-- The source's namespaced cache key: the template literal
`prefix:key` built in `get`/`set`. -/
def cacheKey (pfx key : String) : String := pfx ++ ":" ++ key

/-- The `ttl || this.maxAge` expression of `set`: JavaScript `||` takes the
default not only when `ttl` is absent but also when it is `0` (falsy). -/
def jsOrElse (ttl : Option ℤ) (maxAge : ℤ) : ℤ :=
  match ttl with
  | none => maxAge
  | some t => if t = 0 then maxAge else t

/-- `LocalStorageCache.set` (happy path; quota-error fallback paths store the
same entry or nothing and never throw). -/
def lsCacheSet {V : Type} (pfx : String) (maxAge : ℤ) (store : List (String × CacheEntry V))
    (key : String) (data : V) (ttl : Option ℤ) (now : ℤ) : List (String × CacheEntry V) :=
  setItem store (cacheKey pfx key) { data := data, timestamp := now, ttl := jsOrElse ttl maxAge }

/-- `LocalStorageCache.get`: a missing key is a miss; an entry whose age
`now - timestamp` exceeds its stored `ttl` is removed and is a miss;
otherwise the data is returned. Returns the result and the updated store. -/
def lsCacheGet {V : Type} (pfx : String) (store : List (String × CacheEntry V))
    (key : String) (now : ℤ) : Option V × List (String × CacheEntry V) :=
  match getItem store (cacheKey pfx key) with
  | none => (none, store)
  | some entry =>
    if now - entry.timestamp > entry.ttl then (none, removeItem store (cacheKey pfx key))
    else (some entry.data, store)

lemma getItem_setItem {V : Type} (store : List (String × CacheEntry V)) (k : String)
    (e : CacheEntry V) : getItem (setItem store k e) k = some e := by
  induction store with
  | nil => simp [setItem, getItem]
  | cons kv rest ih =>
    by_cases hk : kv.1 = k
    · simpa [setItem, hk] using ih
    · simp only [setItem, List.filter_cons] at ih ⊢
      have : (decide (kv.1 ≠ k)) = true := by simpa using hk
      rw [this]
      simp only [List.cons_append, getItem]
      rw [if_neg hk]
      exact ih

/-- C9 counterexample: `set` with `ttl = 0` stores the default `maxAge`
(900000 ms) because `ttl || this.maxAge` treats `0` as absent, so a `get` one
millisecond later — `now − timestamp = 1 > 0 = ttl` — still returns the
value instead of the miss the claim requires. -/
theorem cache_zero_ttl_counterexample :
    (lsCacheGet "market-cache" (lsCacheSet "market-cache" 900000 [] "breadth" (42 : ℤ)
      (some 0) 1000) "breadth" 1001).1 = some 42 ∧ ((1001 : ℤ) - 1000 > 0) := by
  constructor
  · rfl
  · norm_num

/-- C9 amended: for any nonzero requested `ttl` (zero is falsy in the
`ttl || maxAge` default and falls back to `maxAge`), a `get` at most `ttl`
after the `set` returns the stored value and a `get` strictly later than
`ttl` after the `set` misses; both operations are total functions (the
source's catch-all handlers mean neither ever throws). -/
theorem cache_get_after_set (V : Type) (pfx : String) (maxAge t now now' : ℤ)
    (key : String) (v : V) (store : List (String × CacheEntry V)) (ht : t ≠ 0) :
    (now' - now ≤ t →
      (lsCacheGet pfx (lsCacheSet pfx maxAge store key v (some t) now) key now').1 = some v) ∧
    (now' - now > t →
      (lsCacheGet pfx (lsCacheSet pfx maxAge store key v (some t) now) key now').1 = none) := by
  have hset : getItem (lsCacheSet pfx maxAge store key v (some t) now) (cacheKey pfx key)
      = some { data := v, timestamp := now, ttl := t } := by
    rw [lsCacheSet, getItem_setItem]
    simp [jsOrElse, ht]
  constructor
  · intro hle
    rw [lsCacheGet, hset]
    simp only
    rw [if_neg (by omega)]
  · intro hgt
    rw [lsCacheGet, hset]
    simp only
    rw [if_pos (by omega)]

/-- Witness for `cache_get_after_set`: value 7 stored at time 1000 with ttl
500 is returned at time 1400 and missed at time 1501. -/
theorem cache_get_after_set_witness :
    (lsCacheGet "market-cache" (lsCacheSet "market-cache" 900000 [] "k" (7 : ℤ) (some 500) 1000)
      "k" 1400).1 = some 7 ∧
    (lsCacheGet "market-cache" (lsCacheSet "market-cache" 900000 [] "k" (7 : ℤ) (some 500) 1000)
      "k" 1501).1 = none := by
  exact ⟨(cache_get_after_set ℤ "market-cache" 900000 500 1000 1400 "k" 7 [] (by norm_num)).1
      (by norm_num),
    (cache_get_after_set ℤ "market-cache" 900000 500 1000 1501 "k" 7 [] (by norm_num)).2
      (by norm_num)⟩

-- ============================================================================
-- Pillar agreement helpers (src/src/utils/pillarAgreement.ts)
-- ============================================================================

structure PillarCategories where
  bullish : List (String × ℤ)
  neutral : List (String × ℤ)
  bearish : List (String × ℤ)
  deriving Repr, DecidableEq

/-- `Object.entries(pillars)` in the insertion order of the `Pillars` type. -/
def Pillars.entries (p : Pillars) : List (String × Pillar) :=
  [("direction", p.direction), ("breadth", p.breadth), ("volatility", p.volatility),
   ("credit", p.credit), ("sentiment", p.sentiment), ("global", p.global)]

/-- `categorizePillars` of the source: bullish `score ≥ 60`, neutral
`45 ≤ score < 60`, bearish `score < 45`, each as `[key, score]` pairs. -/
def categorizePillars (pillars : Pillars) : PillarCategories :=
  let entries := pillars.entries
  { bullish := (entries.filter (fun kp => kp.2.score ≥ 60)).map (fun kp => (kp.1, kp.2.score))
    neutral := (entries.filter (fun kp => kp.2.score ≥ 45 ∧ kp.2.score < 60)).map
      (fun kp => (kp.1, kp.2.score))
    bearish := (entries.filter (fun kp => kp.2.score < 45)).map (fun kp => (kp.1, kp.2.score)) }

lemma three_band_length (l : List (String × Pillar)) :
    (l.filter (fun kp => kp.2.score ≥ 60)).length
      + (l.filter (fun kp => kp.2.score ≥ 45 ∧ kp.2.score < 60)).length
      + (l.filter (fun kp => kp.2.score < 45)).length = l.length := by
  induction l with
  | nil => simp
  | cons x xs ih =>
    by_cases h1 : x.2.score ≥ 60
    · have h2 : ¬(x.2.score ≥ 45 ∧ x.2.score < 60) := by omega
      have h3 : ¬(x.2.score < 45) := by omega
      simp only [List.filter_cons]
      rw [if_pos (by simpa using h1), if_neg (by simpa using h2), if_neg (by simpa using h3)]
      simp only [List.length_cons]
      omega
    · by_cases h4 : x.2.score ≥ 45
      · have h2 : x.2.score ≥ 45 ∧ x.2.score < 60 := by omega
        have h3 : ¬(x.2.score < 45) := by omega
        simp only [List.filter_cons]
        rw [if_neg (by simpa using h1), if_pos (by simpa using h2), if_neg (by simpa using h3)]
        simp only [List.length_cons]
        omega
      · have h3 : x.2.score < 45 := by omega
        have h2 : ¬(x.2.score ≥ 45 ∧ x.2.score < 60) := by omega
        simp only [List.filter_cons]
        rw [if_neg (by simpa using h1), if_neg (by simpa using h2), if_pos (by simpa using h3)]
        simp only [List.length_cons]
        omega

lemma mem_scoreBand {l : List (String × Pillar)} {P : ℤ → Prop} [DecidablePred P]
    {x : String × ℤ}
    (hx : x ∈ (l.filter (fun kp => P kp.2.score)).map (fun kp => (kp.1, kp.2.score))) :
    P x.2 := by
  obtain ⟨kp, hkp, hexq⟩ := List.mem_map.mp hx
  have h1 := List.of_mem_filter hkp
  simp only [decide_eq_true_eq] at h1
  rw [← hexq]
  exact h1

lemma mem_band_of_mem {l : List (String × Pillar)} {P : ℤ → Prop} [DecidablePred P]
    {kp : String × Pillar} (hkp : kp ∈ l) (hP : P kp.2.score) :
    (kp.1, kp.2.score) ∈ (l.filter (fun x => P x.2.score)).map (fun x => (x.1, x.2.score)) :=
  List.mem_map.mpr ⟨kp, List.mem_filter.mpr ⟨hkp, by simpa using hP⟩, rfl⟩

/-- C10: `categorizePillars` partitions its input — the three band lists'
sizes always sum to the number of pillar entries, and every input entry's
`[key, score]` pair lands in exactly one of bullish (`score ≥ 60`), neutral
(`45 ≤ score < 60`), or bearish (`score < 45`). -/
theorem categorizePillars_partition :
    (∀ p : Pillars,
      (categorizePillars p).bullish.length + (categorizePillars p).neutral.length
        + (categorizePillars p).bearish.length = p.entries.length) ∧
    (∀ p : Pillars, ∀ kp ∈ p.entries,
      ((kp.1, kp.2.score) ∈ (categorizePillars p).bullish
          ∧ (kp.1, kp.2.score) ∉ (categorizePillars p).neutral
          ∧ (kp.1, kp.2.score) ∉ (categorizePillars p).bearish)
        ∨ ((kp.1, kp.2.score) ∉ (categorizePillars p).bullish
          ∧ (kp.1, kp.2.score) ∈ (categorizePillars p).neutral
          ∧ (kp.1, kp.2.score) ∉ (categorizePillars p).bearish)
        ∨ ((kp.1, kp.2.score) ∉ (categorizePillars p).bullish
          ∧ (kp.1, kp.2.score) ∉ (categorizePillars p).neutral
          ∧ (kp.1, kp.2.score) ∈ (categorizePillars p).bearish)) := by
  constructor
  · intro p
    simp only [categorizePillars, List.length_map]
    exact three_band_length p.entries
  · intro p kp hkp
    simp only [categorizePillars]
    by_cases h1 : kp.2.score ≥ 60
    · refine Or.inl ⟨mem_band_of_mem (P := fun s => s ≥ 60) hkp h1, ?_, ?_⟩
      · intro hmem
        have := mem_scoreBand (P := fun s => s ≥ 45 ∧ s < 60) hmem
        omega
      · intro hmem
        have := mem_scoreBand (P := fun s => s < 45) hmem
        omega
    · by_cases h4 : kp.2.score ≥ 45
      · refine Or.inr (Or.inl ⟨?_,
          mem_band_of_mem (P := fun s => s ≥ 45 ∧ s < 60) hkp ⟨h4, by omega⟩, ?_⟩)
        · intro hmem
          have := mem_scoreBand (P := fun s => s ≥ 60) hmem
          omega
        · intro hmem
          have := mem_scoreBand (P := fun s => s < 45) hmem
          omega
      · refine Or.inr (Or.inr ⟨?_, ?_,
          mem_band_of_mem (P := fun s => s < 45) hkp (by omega)⟩)
        · intro hmem
          have := mem_scoreBand (P := fun s => s ≥ 60) hmem
          omega
        · intro hmem
          have := mem_scoreBand (P := fun s => s ≥ 45 ∧ s < 60) hmem
          omega

/-- Witness for `categorizePillars_partition` on concrete pillar scores
`70, 60, 72, 55, 45, 30`: the direction entry (score 70) lands in the bullish
list and in no other. -/
theorem categorizePillars_partition_witness :
    (("direction", (70 : ℤ)) ∈ (categorizePillars (mkPillarsWithScores 70 60 72 55 45 30)).bullish
      ∧ ("direction", (70 : ℤ))
          ∉ (categorizePillars (mkPillarsWithScores 70 60 72 55 45 30)).neutral
      ∧ ("direction", (70 : ℤ))
          ∉ (categorizePillars (mkPillarsWithScores 70 60 72 55 45 30)).bearish)
    ∨ (("direction", (70 : ℤ))
          ∉ (categorizePillars (mkPillarsWithScores 70 60 72 55 45 30)).bullish
      ∧ ("direction", (70 : ℤ)) ∈ (categorizePillars (mkPillarsWithScores 70 60 72 55 45 30)).neutral
      ∧ ("direction", (70 : ℤ))
          ∉ (categorizePillars (mkPillarsWithScores 70 60 72 55 45 30)).bearish)
    ∨ (("direction", (70 : ℤ))
          ∉ (categorizePillars (mkPillarsWithScores 70 60 72 55 45 30)).bullish
      ∧ ("direction", (70 : ℤ)) ∉ (categorizePillars (mkPillarsWithScores 70 60 72 55 45 30)).neutral
      ∧ ("direction", (70 : ℤ))
          ∈ (categorizePillars (mkPillarsWithScores 70 60 72 55 45 30)).bearish) := by
  have h := categorizePillars_partition.2 (mkPillarsWithScores 70 60 72 55 45 30)
    ("direction", (mkPillarsWithScores 70 60 72 55 45 30).direction)
    (by simp [Pillars.entries])
  simpa [mkPillarsWithScores] using h

-- ============================================================================
-- RateLimiter (src/src/services/breadthService.ts)
-- ============================================================================

/-- One queued task: how long its `fn()` runs and whether it resolves
(`callsThisMinute` is incremented only after a successful `await fn()`). -/
structure RLTask where
  dur : ℕ
  ok : Bool
  deriving Repr, DecidableEq

/-- The limiter's mutable state: the wall clock (ms), `callsThisMinute`, and
`lastResetTime`. -/
structure RLState where
  time : ℕ
  calls : ℕ
  lastReset : ℕ
  deriving Repr, DecidableEq

/-- One execution record: when `fn()` was invoked, the value of
`lastResetTime` at that moment (its rate-limit window), and whether it
succeeded. -/
structure RLExec where
  start : ℕ
  window : ℕ
  ok : Bool
  deriving Repr, DecidableEq

/-- The queued closure `execute` pushes, run by the strictly sequential
`processQueue`: reset the counter if a minute has passed since
`lastResetTime`; if the counter has reached the budget, sleep until the
window ends and reset; then invoke `fn`, incrementing the counter only on
success. Returns the next state and the execution record. -/
def runTask (maxCallsPerMinute : ℕ) (s : RLState) (t : RLTask) : RLState × RLExec :=
  let s1 := if s.time - s.lastReset ≥ 60000 then
      { s with calls := 0, lastReset := s.time } else s
  let s2 := if s1.calls ≥ maxCallsPerMinute then
      let waitTime := 60000 - (s1.time - s1.lastReset)
      if waitTime > 0 then
        { time := s1.time + waitTime, calls := 0, lastReset := s1.time + waitTime }
      else s1
    else s1
  ({ time := s2.time + t.dur, calls := if t.ok then s2.calls + 1 else s2.calls,
     lastReset := s2.lastReset },
   { start := s2.time, window := s2.lastReset, ok := t.ok })

/-- `processQueue` draining the FIFO queue one task at a time. -/
def runQueue (maxCallsPerMinute : ℕ) : RLState → List RLTask → RLState × List RLExec
  | s, [] => (s, [])
  | s, t :: ts =>
    let se := runTask maxCallsPerMinute s t
    let rest := runQueue maxCallsPerMinute se.1 ts
    (rest.1, se.2 :: rest.2)

/-- C6 counterexample: budget `B = 2`, limiter constructed at time 0
(`lastResetTime = 0`), four instantaneous successful tasks submitted at time
59000 ms. Tasks 1 and 2 run at 59000; the fixed-schedule window then resets
at 60000, where tasks 3 and 4 run. All four executions fall inside the
single 60-second window starting at 59000 — more than `B = 2` — so the
rolling-window bound the claim states is violated. -/
theorem rateLimiter_rolling_window_violation :
    ((runQueue 2 ⟨59000, 0, 0⟩ [⟨0, true⟩, ⟨0, true⟩, ⟨0, true⟩, ⟨0, true⟩]).2.map RLExec.start
      = [59000, 59000, 60000, 60000]) ∧
    (((runQueue 2 ⟨59000, 0, 0⟩ [⟨0, true⟩, ⟨0, true⟩, ⟨0, true⟩, ⟨0, true⟩]).2.filter
      (fun e => 59000 ≤ e.start && e.start < 59000 + 60000)).length = 4) ∧ 2 < 4 := by
  refine ⟨rfl, rfl, by norm_num⟩

/-- Number of successful executions recorded against window `w`. -/
def countOkInWindow (w : ℕ) (tr : List RLExec) : ℕ :=
  (tr.filter (fun e => e.window == w && e.ok)).length

lemma countOkInWindow_nil (w : ℕ) : countOkInWindow w [] = 0 := rfl

lemma countOkInWindow_cons (w : ℕ) (e : RLExec) (tr : List RLExec) :
    countOkInWindow w (e :: tr) =
      countOkInWindow w tr + (if e.window = w ∧ e.ok = true then 1 else 0) := by
  by_cases h1 : e.window = w <;> by_cases h2 : e.ok = true <;>
    simp [countOkInWindow, List.filter_cons, h1, h2]

lemma countOkInWindow_eq_zero {w : ℕ} {tr : List RLExec}
    (h : ∀ e ∈ tr, e.window ≠ w) : countOkInWindow w tr = 0 := by
  induction tr with
  | nil => rfl
  | cons e rest ih =>
    rw [countOkInWindow_cons, if_neg (fun hc => h e (List.mem_cons_self _ _) hc.1),
      ih (fun x hx => h x (List.mem_cons_of_mem _ hx))]

lemma runQueue_cons (B : ℕ) (s : RLState) (t : RLTask) (ts : List RLTask) :
    runQueue B s (t :: ts) =
      ((runQueue B (runTask B s t).1 ts).1,
        (runTask B s t).2 :: (runQueue B (runTask B s t).1 ts).2) := rfl

lemma runTask_reset {B : ℕ} (hB : 1 ≤ B) {s : RLState} (t : RLTask)
    (hA : s.time - s.lastReset ≥ 60000) :
    runTask B s t =
      (⟨s.time + t.dur, if t.ok then 1 else 0, s.time⟩, ⟨s.time, s.time, t.ok⟩) := by
  simp only [runTask, if_pos hA]
  rw [if_neg (by omega : ¬ (0 ≥ B))]

lemma runTask_free {B : ℕ} {s : RLState} (t : RLTask)
    (hA : ¬ s.time - s.lastReset ≥ 60000) (hC : ¬ s.calls ≥ B) :
    runTask B s t =
      (⟨s.time + t.dur, if t.ok then s.calls + 1 else s.calls, s.lastReset⟩,
        ⟨s.time, s.lastReset, t.ok⟩) := by
  simp only [runTask, if_neg hA]
  rw [if_neg hC]

lemma runTask_wait {B : ℕ} {s : RLState} (t : RLTask) (hle : s.lastReset ≤ s.time)
    (hA : ¬ s.time - s.lastReset ≥ 60000) (hC : s.calls ≥ B) :
    runTask B s t =
      (⟨s.lastReset + 60000 + t.dur, if t.ok then 1 else 0, s.lastReset + 60000⟩,
        ⟨s.lastReset + 60000, s.lastReset + 60000, t.ok⟩) := by
  simp only [runTask, if_neg hA]
  rw [if_pos hC, if_pos (by omega : 60000 - (s.time - s.lastReset) > 0)]
  have harith : s.time + (60000 - (s.time - s.lastReset)) = s.lastReset + 60000 := by omega
  rw [harith]

lemma runQueue_window_invariant (B : ℕ) (hB : 1 ≤ B) :
    ∀ (tasks : List RLTask) (s : RLState), s.lastReset ≤ s.time → s.calls ≤ B →
      ((runQueue B s tasks).2.length = tasks.length) ∧
      (∀ w, countOkInWindow w (runQueue B s tasks).2 ≤ B) ∧
      (countOkInWindow s.lastReset (runQueue B s tasks).2 ≤ B - s.calls) ∧
      (∀ e ∈ (runQueue B s tasks).2, s.lastReset ≤ e.window) := by
  intro tasks
  induction tasks with
  | nil =>
    intro s _ _
    refine ⟨rfl, fun w => ?_, ?_, ?_⟩ <;> simp [runQueue, countOkInWindow]
  | cons t ts ih =>
    intro s hle hcalls
    by_cases hA : s.time - s.lastReset ≥ 60000
    · -- counter reset on schedule: new window starts at s.time
      rw [runQueue_cons, runTask_reset hB t hA]
      dsimp only
      obtain ⟨ihlen, ihall, ihcur, ihge⟩ :=
        ih ⟨s.time + t.dur, if t.ok then 1 else 0, s.time⟩
          (by dsimp only; omega) (by dsimp only; by_cases h : t.ok <;> simp [h] <;> omega)
      dsimp only at ihlen ihall ihcur ihge
      have hzero : countOkInWindow s.lastReset
          (runQueue B (⟨s.time + t.dur, if t.ok then 1 else 0, s.time⟩ : RLState) ts).2 = 0 :=
        countOkInWindow_eq_zero (fun e he => by have := ihge e he; omega)
      refine ⟨by simpa using ihlen, ?_, ?_, ?_⟩
      · intro w
        rw [countOkInWindow_cons]
        dsimp only
        by_cases hw : s.time = w
        · subst hw
          by_cases h : t.ok <;> simp [h] at ihcur ⊢ <;> omega
        · have hne : ¬(s.time = w ∧ t.ok = true) := fun hcon => hw hcon.1
          rw [if_neg hne]
          have := ihall w
          omega
      · rw [countOkInWindow_cons]
        dsimp only
        have hne : ¬(s.time = s.lastReset ∧ t.ok = true) := fun hcon => by
          have := hcon.1
          omega
        rw [if_neg hne, hzero]
        omega
      · intro e he
        rcases List.mem_cons.mp he with h | h
        · subst h
          exact hle
        · have := ihge e h
          omega
    · by_cases hC : s.calls ≥ B
      · -- budget exhausted: sleep to the window end, reset, then run
        rw [runQueue_cons, runTask_wait t hle hA hC]
        dsimp only
        obtain ⟨ihlen, ihall, ihcur, ihge⟩ :=
          ih ⟨s.lastReset + 60000 + t.dur, if t.ok then 1 else 0, s.lastReset + 60000⟩
            (by dsimp only; omega) (by dsimp only; by_cases h : t.ok <;> simp [h] <;> omega)
        dsimp only at ihlen ihall ihcur ihge
        have hzero : countOkInWindow s.lastReset
            (runQueue B (⟨s.lastReset + 60000 + t.dur, if t.ok then 1 else 0,
              s.lastReset + 60000⟩ : RLState) ts).2 = 0 :=
          countOkInWindow_eq_zero (fun e he => by have := ihge e he; omega)
        refine ⟨by simpa using ihlen, ?_, ?_, ?_⟩
        · intro w
          rw [countOkInWindow_cons]
          dsimp only
          by_cases hw : s.lastReset + 60000 = w
          · subst hw
            by_cases h : t.ok <;> simp [h] at ihcur ⊢ <;> omega
          · have hne : ¬(s.lastReset + 60000 = w ∧ t.ok = true) := fun hcon => hw hcon.1
            rw [if_neg hne]
            have := ihall w
            omega
        · rw [countOkInWindow_cons]
          dsimp only
          have hne : ¬(s.lastReset + 60000 = s.lastReset ∧ t.ok = true) := fun hcon => by
            have := hcon.1
            omega
          rw [if_neg hne, hzero]
          omega
        · intro e he
          rcases List.mem_cons.mp he with h | h
          · subst h
            dsimp only
            omega
          · have := ihge e h
            omega
      · -- budget available: run immediately in the current window
        rw [runQueue_cons, runTask_free t hA hC]
        dsimp only
        obtain ⟨ihlen, ihall, ihcur, ihge⟩ :=
          ih ⟨s.time + t.dur, if t.ok then s.calls + 1 else s.calls, s.lastReset⟩
            (by dsimp only; omega)
            (by dsimp only; by_cases h : t.ok <;> simp [h] <;> omega)
        dsimp only at ihlen ihall ihcur ihge
        refine ⟨by simpa using ihlen, ?_, ?_, ?_⟩
        · intro w
          rw [countOkInWindow_cons]
          dsimp only
          by_cases hw : s.lastReset = w
          · subst hw
            by_cases h : t.ok <;> simp [h] at ihcur ⊢ <;> omega
          · have hne : ¬(s.lastReset = w ∧ t.ok = true) := fun hcon => hw hcon.1
            rw [if_neg hne]
            have := ihall w
            omega
        · rw [countOkInWindow_cons]
          dsimp only
          by_cases h : t.ok <;> simp [h] at ihcur ⊢ <;> omega
        · intro e he
          rcases List.mem_cons.mp he with h | h
          · subst h
            dsimp only
            omega
          · exact ihge e h

/-- C6 amended: submitting `M` tasks with per-window budget `B ≥ 1` to a
freshly constructed limiter (counter 0, `lastResetTime` no later than now)
completes all `M` tasks — every task gets exactly one execution record — and
at most `B` successfully completing executions are charged to any one
rate-limit window (a value of `lastResetTime`). The limiter resets its
counter on a fixed schedule rather than tracking a rolling window, so up to
`2B` executions can fall inside a single rolling 60-second span (see the
counterexample), and executions whose `fn` rejects are never counted. -/
theorem rateLimiter_completion_and_window_bound :
    ∀ (B : ℕ) (s : RLState) (tasks : List RLTask), 1 ≤ B → s.calls = 0 →
      s.lastReset ≤ s.time →
      ((runQueue B s tasks).2.length = tasks.length) ∧
      (∀ w, countOkInWindow w (runQueue B s tasks).2 ≤ B) := by
  intro B s tasks hB h0 hle
  obtain ⟨h1, h2, _, _⟩ := runQueue_window_invariant B hB tasks s hle (by omega)
  exact ⟨h1, h2⟩

/-- Witness for `rateLimiter_completion_and_window_bound`: three
instantaneous tasks under budget 2 from a fresh limiter all complete, with at
most 2 successes charged to window 0. -/
theorem rateLimiter_completion_and_window_bound_witness :
    ((runQueue 2 ⟨0, 0, 0⟩ [⟨0, true⟩, ⟨0, true⟩, ⟨0, true⟩]).2.length = 3) ∧
    countOkInWindow 0 (runQueue 2 ⟨0, 0, 0⟩ [⟨0, true⟩, ⟨0, true⟩, ⟨0, true⟩]).2 ≤ 2 := by
  have h := rateLimiter_completion_and_window_bound 2 ⟨0, 0, 0⟩
    [⟨0, true⟩, ⟨0, true⟩, ⟨0, true⟩] (by norm_num) rfl (by norm_num)
  exact ⟨h.1, h.2 0⟩

/-- Witness for `pillar_score_is_rounded_mean`: the volatility pillar of the
concrete snapshot has 3 signals and the rounded-mean score, and the rounded
mean of scores `85, 60, 70` is unchanged by a cyclic permutation. -/
theorem pillar_score_is_rounded_mean_witness :
    ((calculatePillarScores rdExample).volatility.signals.length = 3 ∧
      (calculatePillarScores rdExample).volatility.score = jsRound
        ((((calculatePillarScores rdExample).volatility.signals.map Signal.score).sum : ℚ) / 3)) ∧
    calcPillarScore [mkSignal 85, mkSignal 60, mkSignal 70] =
      calcPillarScore [mkSignal 70, mkSignal 85, mkSignal 60] := by
  refine ⟨pillar_score_is_rounded_mean.1 rdExample _ ?_,
    pillar_score_is_rounded_mean.2.1 _ _ ?_⟩
  · simp [Pillars.toList]
  · decide
